import Mathlib

/-!
Shallow embedding of the manual-journal service of the bigcapital repository
(`src/server/src/services/ManualJournals/ManualJournalsService.ts`) and of the
payment-receive form helper
(`src/packages/webapp/src/containers/Sales/PaymentsReceived/PaymentReceiveForm/utils.tsx`).

Monetary values are modelled as rationals (the source works on JS numbers that
the spec requires to be already rounded to the currency minor unit; equality in
the source is exact `!==`).  Database state of one tenant is modelled as a
`TenantState` record of row lists; every ORM read is a list lookup/filter and
every ORM write is recorded in a `WriteOp` trace in the order the source issues
it.  JS `undefined`/missing values are modelled with `Option`.  A thrown
`ServiceError` is `Except.error (.service e)`; a JS `TypeError` (e.g. property
access on `undefined`) is `Except.error .jsTypeError`.
-/

deriving instance DecidableEq for Except

/-- One line of a manual-journal DTO (`IManualJournalEntry`): user-assigned
index, credit/debit amounts, account reference and optional contact. -/
structure IManualJournalEntryDTO where
  index : Nat
  credit : ℚ
  debit : ℚ
  accountId : Nat
  contactId : Option Nat
  contactType : Option String
deriving DecidableEq, Repr

/-- The manual-journal DTO (`IManualJournalDTO`).  `journalNumber = none`
models a missing/empty (falsy) journal number. -/
structure IManualJournalDTO where
  journalNumber : Option String
  date : String
  publish : Bool
  entries : List IManualJournalEntryDTO
deriving DecidableEq, Repr

/-- A stored account row (id and slug are all the service reads). -/
structure Account where
  id : Nat
  slug : String
deriving DecidableEq, Repr

/-- A stored contact row (`contactService` is the stored customer/vendor
classification). -/
structure Contact where
  id : Nat
  contactService : String
deriving DecidableEq, Repr

/-- A stored `ManualJournal` row. -/
structure ManualJournal where
  id : Nat
  journalNumber : String
  date : String
  amount : ℚ
  publishedAt : Option Nat
  userId : Nat
deriving DecidableEq, Repr

/-- A stored `ManualJournalEntry` row, keyed by its parent journal id. -/
structure ManualJournalEntryRow where
  manualJournalId : Nat
  entry : IManualJournalEntryDTO
deriving DecidableEq, Repr

/-- The tenant-scoped storage visible to the service (`tenancy.models(tenantId)`
and `tenancy.repositories(tenantId)`), plus the auto-increment journal number
the `AutoIncrementOrdersService` collaborator would return next. -/
structure TenantState where
  journals : List ManualJournal
  entryRows : List ManualJournalEntryRow
  accounts : List Account
  contacts : List Contact
  autoNextNumber : String
deriving DecidableEq, Repr

/-- The `ERRORS` constants thrown as `ServiceError`, with the structured
payloads the source attaches. `contactsNotFound` carries exactly what the code
pushes into `notFoundContactsIds`: the stored-contact lookup result (`none`
models pushing JS `undefined`). -/
inductive ServiceError where
  | notFound
  | creditDebitNotEqualZero
  | creditDebitNotEqual
  | acccountsIdsNotFound
  | contactsNotFound (contactsIds : List (Option Contact))
  | journalNumberExists
  | entriesShouldAssignWithContact (accountSlug : String) (contactType : String)
      (indexes : List Nat)
  | manualJournalNoRequired
  | manualJournalAlreadyPublished
deriving DecidableEq, Repr

/-- A failure: a thrown `ServiceError`, or an uncaught JS `TypeError` (the
source dereferences `account.id` without checking the slug lookup). -/
inductive Failure where
  | service (err : ServiceError)
  | jsTypeError
deriving DecidableEq, Repr

/-- `valdiateCreditDebitTotalEquals` (sic): sums the strictly positive credits
and debits separately, throws `CREDIT_DEBIT_NOT_EQUAL_ZERO` when either total
is ≤ 0 and `CREDIT_DEBIT_NOT_EQUAL` when the totals differ. -/
def valdiateCreditDebitTotalEquals (manualJournalDTO : IManualJournalDTO) :
    Except Failure Unit :=
  let totalCredit : ℚ := manualJournalDTO.entries.foldl
    (fun acc e => if e.credit > 0 then acc + e.credit else acc) 0
  let totalDebit : ℚ := manualJournalDTO.entries.foldl
    (fun acc e => if e.debit > 0 then acc + e.debit else acc) 0
  if totalCredit ≤ 0 ∨ totalDebit ≤ 0 then
    .error (.service .creditDebitNotEqualZero)
  else if totalCredit ≠ totalDebit then
    .error (.service .creditDebitNotEqual)
  else
    .ok ()

/-- The balance rule as the spec words it: "sum credits and sum debits across
entries" (plain sums, no positivity filter), fail `CREDIT_DEBIT_NOT_EQUAL_ZERO`
if either sum is ≤ 0, fail `CREDIT_DEBIT_NOT_EQUAL` if the sums differ. -/
def specBalanceCheck (manualJournalDTO : IManualJournalDTO) :
    Except Failure Unit :=
  let totalCredit : ℚ := (manualJournalDTO.entries.map (fun e => e.credit)).sum
  let totalDebit : ℚ := (manualJournalDTO.entries.map (fun e => e.debit)).sum
  if totalCredit ≤ 0 ∨ totalDebit ≤ 0 then
    .error (.service .creditDebitNotEqualZero)
  else if totalCredit ≠ totalDebit then
    .error (.service .creditDebitNotEqual)
  else
    .ok ()

/-- One row of the payment-receive form entries table; `index`, `invoice_id`
and `due_amount` stand for the fields `amountPaymentEntries` spreads through
unchanged. -/
structure PaymentEntry where
  index : Nat
  invoice_id : Nat
  due_amount : ℚ
  payment_amount : ℚ
deriving DecidableEq, Repr

/-- `amountPaymentEntries` from the payment-receive form utils: walks the
entries in order keeping a running `total`, assigns
`payment_amount = min(due_amount, total)` and subtracts `max(diff, 0)` from the
running total. -/
def amountPaymentEntries : ℚ → List PaymentEntry → List PaymentEntry
  | _, [] => []
  | total, item :: rest =>
    let diff := min item.due_amount total
    { item with payment_amount := diff } ::
      amountPaymentEntries (total - max diff 0) rest

/-- The assignment as the claim words it: each entry in list order gets
`payment_amount = min(due_amount, remaining)` where `remaining` starts at the
given amount and decreases by each assigned amount. -/
def specAssignPayments : ℚ → List PaymentEntry → List PaymentEntry
  | _, [] => []
  | remaining, item :: rest =>
    { item with payment_amount := min item.due_amount remaining } ::
      specAssignPayments (remaining - min item.due_amount remaining) rest

/-- `validateAccountsExistance`: collects the entry account ids, reads the
stored accounts among them (`whereIn`) and throws `ACCCOUNTS_IDS_NOT_FOUND`
when lodash `difference` of the requested ids and the stored ids is
non-empty. -/
def validateAccountsExistance (st : TenantState)
    (manualJournalDTO : IManualJournalDTO) : Except Failure Unit :=
  let manualAccountsIds := manualJournalDTO.entries.map (fun e => e.accountId)
  let storedAccountsIds :=
    ((st.accounts.filter (fun a => manualAccountsIds.contains a.id)).map
      (fun a => a.id))
  if (manualAccountsIds.filter (fun i => !storedAccountsIds.contains i)).length
      > 0
  then .error (.service .acccountsIdsNotFound)
  else .ok ()

/-- `validateManualJournalNoUnique`: reads the journals holding the given
journal number, excluding `notId` when provided (`whereNot('id', notId)` on
edit), and throws `JOURNAL_NUMBER_EXISTS` when any remain. -/
def validateManualJournalNoUnique (st : TenantState) (journalNumber : String)
    (notId : Option Nat) : Except Failure Unit :=
  let journals := st.journals.filter (fun j =>
    j.journalNumber == journalNumber &&
      (match notId with
       | some i => j.id != i
       | none => true))
  if journals.length > 0 then .error (.service .journalNumberExists)
  else .ok ()

/-- `validateContactsExistance`: for the entries that carry a (truthy)
`contactId`, looks each contact up among the stored contacts; when the lookup
fails or the stored `contactService` differs from the entry `contactType`, the
code pushes the lookup result `storedContact` itself (JS `undefined`, i.e.
`none`, when absent) onto `notFoundContactsIds`, and throws
`CONTACTS_NOT_FOUND` carrying that list when it is non-empty. -/
def validateContactsExistance (st : TenantState)
    (manualJournalDTO : IManualJournalDTO) : Except Failure Unit :=
  let entriesContactPairs :=
    manualJournalDTO.entries.filter (fun e => e.contactId.isSome)
  if entriesContactPairs.length > 0 then
    let notFoundContactsIds : List (Option Contact) :=
      entriesContactPairs.foldl (fun acc contactEntry =>
        let storedContact :=
          st.contacts.find? (fun c => some c.id == contactEntry.contactId)
        match storedContact with
        | none => acc ++ [none]
        | some c =>
          if some c.contactService ≠ contactEntry.contactType then
            acc ++ [some c]
          else acc) []
    if notFoundContactsIds.length > 0 then
      .error (.service (.contactsNotFound notFoundContactsIds))
    else .ok ()
  else .ok ()

/-- `validateAccountWithContactType`: resolves the account by slug
(dereferencing the result unchecked — a missing slug is a JS `TypeError`),
keeps the entries referencing that account, returns early when there are none,
and otherwise throws `ENTRIES_SHOULD_ASSIGN_WITH_CONTACT` carrying the slug,
the expected contact type and the offending entry indexes when any kept entry
has a missing or different `contactType`. -/
def validateAccountWithContactType (st : TenantState)
    (entriesDTO : List IManualJournalEntryDTO)
    (accountBySlug contactType : String) : Except Failure Unit :=
  match st.accounts.find? (fun a => a.slug == accountBySlug) with
  | none => .error .jsTypeError
  | some account =>
    let accountEntries := entriesDTO.filter (fun e => e.accountId == account.id)
    if accountEntries.length = 0 then .ok ()
    else
      let entriesNoContact := accountEntries.filter (fun e =>
        e.contactType.isNone || e.contactType != some contactType)
      if entriesNoContact.length > 0 then
        .error (.service (.entriesShouldAssignWithContact accountBySlug
          contactType (entriesNoContact.map (fun e => e.index))))
      else .ok ()

/-- `dynamicValidateAccountsWithContactType`: the receivable/customer and the
payable/vendor checks both run (the source issues them through `Promise.all`,
so both must succeed); the model sequences them left to right. -/
def dynamicValidateAccountsWithContactType (st : TenantState)
    (entriesDTO : List IManualJournalEntryDTO) : Except Failure Unit :=
  match validateAccountWithContactType st entriesDTO "accounts-receivable"
      "customer" with
  | .error e => .error e
  | .ok _ =>
    validateAccountWithContactType st entriesDTO "accounts-payable" "vendor"

/-- `validateJournalNoRequire`: throws `MANUAL_JOURNAL_NO_REQUIRED` on a falsy
(empty) journal number. -/
def validateJournalNoRequire (journalNumber : String) : Except Failure Unit :=
  if journalNumber = "" then .error (.service .manualJournalNoRequired)
  else .ok ()

/-- `getManualJournalOrThrowError`: resolves a journal by id or throws
`NOT_FOUND`. -/
def getManualJournalOrThrowError (st : TenantState) (manualJournalId : Nat) :
    Except Failure ManualJournal :=
  match st.journals.find? (fun j => j.id == manualJournalId) with
  | none => .error (.service .notFound)
  | some manualJournal => .ok manualJournal

/-- `getManualJournalsOrThrowError`: resolves a batch of journals by id
(`whereIn`) and throws `NOT_FOUND` when lodash `difference` of the requested
ids and the resolved ids is non-empty. -/
def getManualJournalsOrThrowError (st : TenantState)
    (manualJournalsIds : List Nat) : Except Failure (List ManualJournal) :=
  let manualJournals :=
    st.journals.filter (fun j => manualJournalsIds.contains j.id)
  let notFoundManualJournals := manualJournalsIds.filter
    (fun i => !(manualJournals.map (fun m => m.id)).contains i)
  if notFoundManualJournals.length > 0 then .error (.service .notFound)
  else .ok manualJournals

/-- `lodash.sumBy(entries, 'credit')`. -/
def sumByCredit (entries : List IManualJournalEntryDTO) : ℚ :=
  entries.foldl (fun acc e => acc + e.credit) 0

/-- `moment(date).format('YYYY-MM-DD')`: the moment library is an external
collaborator; date normalization is modelled as the identity. -/
def formatYMD (date : String) : String := date

/-- The object `transformNewDTOToModel` builds for the create upsert. -/
structure NewJournalModel where
  journalNumber : String
  date : String
  amount : ℚ
  publishedAt : Option Nat
  userId : Nat
  entries : List IManualJournalEntryDTO
deriving DecidableEq, Repr

/-- `transformNewDTOToModel`: `amount = sumBy(entries, 'credit') || 0`, date
normalized, journal number resolved as the explicit DTO value or else the
auto-increment number (then required to be non-empty), and `publishedAt` set to
now only when the DTO requests publish. -/
def transformNewDTOToModel (st : TenantState) (manualJournalDTO : IManualJournalDTO)
    (userId now : Nat) : Except Failure NewJournalModel :=
  let s := sumByCredit manualJournalDTO.entries
  let amount : ℚ := if s = 0 then 0 else s
  let autoNextNumber := st.autoNextNumber
  let journalNumber := manualJournalDTO.journalNumber.getD autoNextNumber
  match validateJournalNoRequire journalNumber with
  | .error e => .error e
  | .ok _ => .ok
    { journalNumber := journalNumber
      date := formatYMD manualJournalDTO.date
      amount := amount
      publishedAt := if manualJournalDTO.publish then some now else none
      userId := userId
      entries := manualJournalDTO.entries }

/-- The patch object `transformEditDTOToModel` builds for the edit upsert;
`publishedAt = none` models the key being absent from the patch (column left
untouched), since the source only ever adds the key with a value. -/
structure EditJournalModel where
  id : Nat
  amount : ℚ
  date : String
  publishedAt : Option Nat
  journalNumber : Option String
  entries : List IManualJournalEntryDTO
deriving DecidableEq, Repr

/-- `transformEditDTOToModel`: keeps the old id, recomputes
`amount = sumBy(entries, 'credit') || 0` and the date, and adds
`publishedAt = now` to the patch only when the DTO requests publish and the
prior record has no `publishedAt`. -/
def transformEditDTOToModel (manualJournalDTO : IManualJournalDTO)
    (oldManualJournal : ManualJournal) (now : Nat) : EditJournalModel :=
  let s := sumByCredit manualJournalDTO.entries
  { id := oldManualJournal.id
    amount := if s = 0 then 0 else s
    date := formatYMD manualJournalDTO.date
    publishedAt :=
      if manualJournalDTO.publish && oldManualJournal.publishedAt.isNone then
        some now
      else none
    journalNumber := manualJournalDTO.journalNumber
    entries := manualJournalDTO.entries }

/-- One persistence write, recorded in the order the source issues it. -/
inductive WriteOp where
  | upsertJournalGraph (id : Nat)
  | deleteEntriesWhereJournalIn (ids : List Nat)
  | deleteJournalsWhereIdIn (ids : List Nat)
  | patchPublished (ids : List Nat) (now : Nat)
deriving DecidableEq, Repr

/-- Outcome of a public service operation: the returned value or the thrown
failure, the tenant state after the operation, and the trace of persistence
writes in issue order. -/
structure OpOutcome (α : Type) where
  result : Except Failure α
  state : TenantState
  writes : List WriteOp
deriving Repr

/-- The create-path `upsertGraph`: inserts the parent row (with the
store-assigned `newId`) together with its entry rows. -/
def insertJournalGraph (st : TenantState) (m : NewJournalModel) (newId : Nat) :
    TenantState × ManualJournal :=
  let j : ManualJournal :=
    { id := newId, journalNumber := m.journalNumber, date := m.date
      amount := m.amount, publishedAt := m.publishedAt, userId := m.userId }
  ({ st with
      journals := st.journals ++ [j]
      entryRows := st.entryRows ++
        m.entries.map (fun e => { manualJournalId := newId, entry := e }) }, j)

/-- The edit-path `upsertGraph`: patches the parent row fields present in the
model (an absent `publishedAt`/`journalNumber` key leaves the column as it
was) and replaces the journal's entry rows with the DTO entries. -/
def applyEditUpsert (st : TenantState) (m : EditJournalModel) : TenantState :=
  { st with
    journals := st.journals.map (fun j =>
      if j.id == m.id then
        { j with
          amount := m.amount
          date := m.date
          journalNumber := m.journalNumber.getD j.journalNumber
          publishedAt := m.publishedAt.or j.publishedAt }
      else j)
    entryRows := (st.entryRows.filter (fun r => r.manualJournalId != m.id)) ++
      m.entries.map (fun e => { manualJournalId := m.id, entry := e }) }

/-- `makeJournalEntries` (create): transform the DTO (which resolves and
requires the journal number), then run the balance, contact-existence,
account-existence, number-uniqueness and account/contact-type rules in source
order; only after all pass, issue the single `upsertGraph`. -/
def makeJournalEntries (st : TenantState) (manualJournalDTO : IManualJournalDTO)
    (userId now newId : Nat) : OpOutcome ManualJournal :=
  match transformNewDTOToModel st manualJournalDTO userId now with
  | .error e => ⟨.error e, st, []⟩
  | .ok manualJournalObj =>
  match valdiateCreditDebitTotalEquals manualJournalDTO with
  | .error e => ⟨.error e, st, []⟩
  | .ok _ =>
  match validateContactsExistance st manualJournalDTO with
  | .error e => ⟨.error e, st, []⟩
  | .ok _ =>
  match validateAccountsExistance st manualJournalDTO with
  | .error e => ⟨.error e, st, []⟩
  | .ok _ =>
  match validateManualJournalNoUnique st manualJournalObj.journalNumber none with
  | .error e => ⟨.error e, st, []⟩
  | .ok _ =>
  match dynamicValidateAccountsWithContactType st manualJournalDTO.entries with
  | .error e => ⟨.error e, st, []⟩
  | .ok _ =>
    let p := insertJournalGraph st manualJournalObj newId
    ⟨.ok p.2, p.1, [.upsertJournalGraph newId]⟩

/-- `editJournalEntries` (edit): resolve the target journal first (`NOT_FOUND`
before any validation), build the edit patch from the prior record, run the
validation rules in source order (the uniqueness rule only when the DTO
carries a journal number, excluding the edited id), then issue the
`upsertGraph` and re-fetch the journal. -/
def editJournalEntries (st : TenantState) (manualJournalId : Nat)
    (manualJournalDTO : IManualJournalDTO) (now : Nat) :
    OpOutcome (Option ManualJournal × ManualJournal) :=
  match getManualJournalOrThrowError st manualJournalId with
  | .error e => ⟨.error e, st, []⟩
  | .ok oldManualJournal =>
  let manualJournalObj :=
    transformEditDTOToModel manualJournalDTO oldManualJournal now
  match valdiateCreditDebitTotalEquals manualJournalDTO with
  | .error e => ⟨.error e, st, []⟩
  | .ok _ =>
  match validateContactsExistance st manualJournalDTO with
  | .error e => ⟨.error e, st, []⟩
  | .ok _ =>
  match validateAccountsExistance st manualJournalDTO with
  | .error e => ⟨.error e, st, []⟩
  | .ok _ =>
  match (match manualJournalDTO.journalNumber with
         | some n => validateManualJournalNoUnique st n (some manualJournalId)
         | none => .ok ()) with
  | .error e => ⟨.error e, st, []⟩
  | .ok _ =>
  match dynamicValidateAccountsWithContactType st manualJournalDTO.entries with
  | .error e => ⟨.error e, st, []⟩
  | .ok _ =>
    let st1 := applyEditUpsert st manualJournalObj
    let manualJournal := st1.journals.find? (fun j => j.id == manualJournalId)
    ⟨.ok (manualJournal, oldManualJournal), st1,
      [.upsertJournalGraph manualJournalId]⟩

/-- `deleteManualJournals` (bulk delete): resolve the whole batch (`NOT_FOUND`
when any id is absent), then delete the child entry rows (`whereIn` on the
parent id) and afterwards the parent rows. -/
def deleteManualJournals (st : TenantState) (manualJournalsIds : List Nat) :
    OpOutcome (List ManualJournal) :=
  match getManualJournalsOrThrowError st manualJournalsIds with
  | .error e => ⟨.error e, st, []⟩
  | .ok oldManualJournals =>
    let st1 := { st with
      entryRows := st.entryRows.filter
        (fun r => !manualJournalsIds.contains r.manualJournalId) }
    let st2 := { st1 with
      journals := st1.journals.filter
        (fun j => !manualJournalsIds.contains j.id) }
    ⟨.ok oldManualJournals, st2,
      [.deleteEntriesWhereJournalIn manualJournalsIds,
       .deleteJournalsWhereIdIn manualJournalsIds]⟩

/-- `validateManualJournalIsNotPublished`: throws
`MANUAL_JOURNAL_ALREADY_PUBLISHED` when `publishedAt` is set. -/
def validateManualJournalIsNotPublished (manualJournal : ManualJournal) :
    Except Failure Unit :=
  if manualJournal.publishedAt.isSome then
    .error (.service .manualJournalAlreadyPublished)
  else .ok ()

/-- The `patch({ publishedAt: now })` applied `whereIn('id', ids)`. -/
def patchPublishedAt (st : TenantState) (ids : List Nat) (now : Nat) :
    TenantState :=
  { st with
    journals := st.journals.map (fun j =>
      if ids.contains j.id then { j with publishedAt := some now } else j) }

/-- `getNonePublishedManualJournals`: the journals without `publishedAt`. -/
def getNonePublishedManualJournals (manualJournals : List ManualJournal) :
    List ManualJournal :=
  manualJournals.filter (fun manualJournal => manualJournal.publishedAt.isNone)

/-- `getPublishedManualJournals`: the journals with `publishedAt` set. -/
def getPublishedManualJournals (manualJournals : List ManualJournal) :
    List ManualJournal :=
  manualJournals.filter (fun expense => expense.publishedAt.isSome)

/-- `publishManualJournal` (single): resolve or `NOT_FOUND`, throw
`MANUAL_JOURNAL_ALREADY_PUBLISHED` when already published, otherwise stamp
`publishedAt = now`. -/
def publishManualJournal (st : TenantState) (manualJournalId now : Nat) :
    OpOutcome Unit :=
  match getManualJournalOrThrowError st manualJournalId with
  | .error e => ⟨.error e, st, []⟩
  | .ok oldManualJournal =>
  match validateManualJournalIsNotPublished oldManualJournal with
  | .error e => ⟨.error e, st, []⟩
  | .ok _ =>
    ⟨.ok (), patchPublishedAt st [manualJournalId] now,
      [.patchPublished [manualJournalId] now]⟩

/-- The `{ alreadyPublished, published, total }` meta bulk publish returns. -/
structure PublishBulkMeta where
  alreadyPublished : Nat
  published : Nat
  total : Nat
deriving DecidableEq, Repr

/-- `publishManualJournals` (bulk): resolve the whole batch (`NOT_FOUND` when
any id is absent), partition into published / not published, stamp
`publishedAt = now` only on the not-published ids (and only when there are
any), and return the counts. -/
def publishManualJournals (st : TenantState) (manualJournalsIds : List Nat)
    (now : Nat) : OpOutcome PublishBulkMeta :=
  match getManualJournalsOrThrowError st manualJournalsIds with
  | .error e => ⟨.error e, st, []⟩
  | .ok oldManualJournals =>
    let notPublishedJournals := getNonePublishedManualJournals oldManualJournals
    let publishedJournals := getPublishedManualJournals oldManualJournals
    let notPublishedJournalsIds := notPublishedJournals.map (fun j => j.id)
    let stw : TenantState × List WriteOp :=
      if notPublishedJournals.length > 0 then
        (patchPublishedAt st notPublishedJournalsIds now,
          [.patchPublished notPublishedJournalsIds now])
      else (st, [])
    ⟨.ok { alreadyPublished := publishedJournals.length
           published := notPublishedJournals.length
           total := oldManualJournals.length }, stw.1, stw.2⟩

lemma foldl_if_pos_eq_sum {α : Type} (f : α → ℚ) (l : List α) :
    ∀ (a : ℚ), (∀ x ∈ l, 0 ≤ f x) →
      l.foldl (fun acc x => if f x > 0 then acc + f x else acc) a =
        a + (l.map f).sum := by
  induction l with
  | nil => intro a _; simp
  | cons x l ih =>
    intro a h
    simp only [List.foldl_cons, List.map_cons, List.sum_cons]
    by_cases hx : f x > 0
    · rw [if_pos hx, ih (a + f x) (fun y hy => h y (List.mem_cons_of_mem _ hy))]
      ring
    · have hx0 : f x = 0 :=
        le_antisymm (not_lt.mp hx) (h x (List.mem_cons_self x l))
      rw [if_neg hx, ih a (fun y hy => h y (List.mem_cons_of_mem _ hy)), hx0]
      ring

lemma sumByCredit_eq_sum (l : List IManualJournalEntryDTO) :
    sumByCredit l = (l.map (fun e => e.credit)).sum := by
  have h : ∀ (a : ℚ), l.foldl (fun acc e => acc + e.credit) a =
      a + (l.map (fun e => e.credit)).sum := by
    induction l with
    | nil => intro a; simp
    | cons x l ih =>
      intro a
      simp only [List.foldl_cons, List.map_cons, List.sum_cons, ih]
      ring
  simpa using h 0

lemma valdiate_eq_specBalanceCheck (dto : IManualJournalDTO)
    (hnn : ∀ e ∈ dto.entries, 0 ≤ e.credit ∧ 0 ≤ e.debit) :
    valdiateCreditDebitTotalEquals dto = specBalanceCheck dto := by
  unfold valdiateCreditDebitTotalEquals specBalanceCheck
  have hc := foldl_if_pos_eq_sum (fun e => e.credit) dto.entries 0
    (fun x hx => (hnn x hx).1)
  have hd := foldl_if_pos_eq_sum (fun e => e.debit) dto.entries 0
    (fun x hx => (hnn x hx).2)
  simp only [zero_add] at hc hd
  simp only [hc, hd]

/-- Claim C1: for every journal DTO (entries carrying non-negative credit and
debit amounts, as the data model requires), the balance validation used by
create and edit agrees with the spec's plain-sum rule: it fails with
`CREDIT_DEBIT_NOT_EQUAL_ZERO` when either sum is ≤ 0, fails with
`CREDIT_DEBIT_NOT_EQUAL` when the sums differ (exact equality), and passes
otherwise; moreover both `makeJournalEntries` and `editJournalEntries` invoke
exactly this validation and surface its error. -/
theorem balanceRule_spec (dto : IManualJournalDTO)
    (hnn : ∀ e ∈ dto.entries, 0 ≤ e.credit ∧ 0 ≤ e.debit) :
    valdiateCreditDebitTotalEquals dto = specBalanceCheck dto ∧
    (∀ (st : TenantState) (u n i : Nat) (m : NewJournalModel) (e : Failure),
      transformNewDTOToModel st dto u n = .ok m →
      valdiateCreditDebitTotalEquals dto = .error e →
      (makeJournalEntries st dto u n i).result = .error e) ∧
    (∀ (st : TenantState) (jid n : Nat) (old : ManualJournal) (e : Failure),
      getManualJournalOrThrowError st jid = .ok old →
      valdiateCreditDebitTotalEquals dto = .error e →
      (editJournalEntries st jid dto n).result = .error e) := by
  refine ⟨valdiate_eq_specBalanceCheck dto hnn, ?_, ?_⟩
  · intro st u n i m e h1 h2
    simp [makeJournalEntries, h1, h2]
  · intro st jid n old e h1 h2
    simp [editJournalEntries, h1, h2]

def c1Dto : IManualJournalDTO :=
  { journalNumber := some "J-9", date := "2024-02-02", publish := false
    entries := [⟨1, 5, 0, 1, none, none⟩, ⟨2, 0, 5, 2, none, none⟩] }

theorem balanceRule_spec_witness :
    (∀ e ∈ c1Dto.entries, 0 ≤ e.credit ∧ 0 ≤ e.debit) ∧
    valdiateCreditDebitTotalEquals c1Dto = specBalanceCheck c1Dto ∧
    valdiateCreditDebitTotalEquals c1Dto = .ok () :=
  ⟨by decide, (balanceRule_spec c1Dto (by decide)).1,
    by norm_num [valdiateCreditDebitTotalEquals, c1Dto]⟩

lemma min_assign_chain (d a s : ℚ) (hs : 0 ≤ s) :
    min d a + min (a - min d a) s = min a (d + s) := by
  rcases le_total d a with h | h
  · rw [min_eq_left h]
    rcases le_total (a - d) s with h2 | h2
    · rw [min_eq_left h2, min_eq_left (by linarith : a ≤ d + s)]
      ring
    · rw [min_eq_right h2, min_eq_right (by linarith : d + s ≤ a)]
  · rw [min_eq_right h]
    have h0 : a - a = (0 : ℚ) := by ring
    rw [h0, min_eq_left hs, min_eq_left (by linarith : a ≤ d + s)]
    ring

/-- Claim C10: for a non-negative amount and entries with non-negative due
amounts, `amountPaymentEntries` assigns, in list order,
`payment_amount = min(due_amount, remaining)` with the remaining amount
decreasing by each assignment (the spec-shaped recursion); every assigned
amount lies between 0 and the entry's due amount, the other entry fields are
unchanged pairwise, and the assigned total is `min(amount, sum of dues)`. -/
theorem amountPaymentEntries_correct (a : ℚ) (entries : List PaymentEntry)
    (ha : 0 ≤ a) (hd : ∀ e ∈ entries, 0 ≤ e.due_amount) :
    amountPaymentEntries a entries = specAssignPayments a entries ∧
    List.Forall₂ (fun o e => 0 ≤ o.payment_amount ∧
      o.payment_amount ≤ e.due_amount ∧ o.index = e.index ∧
      o.invoice_id = e.invoice_id ∧ o.due_amount = e.due_amount)
      (amountPaymentEntries a entries) entries ∧
    ((amountPaymentEntries a entries).map (fun e => e.payment_amount)).sum =
      min a ((entries.map (fun e => e.due_amount)).sum) := by
  induction entries generalizing a with
  | nil =>
    refine ⟨rfl, List.Forall₂.nil, ?_⟩
    simp only [amountPaymentEntries, List.map_nil, List.sum_nil]
    exact (min_eq_right ha).symm
  | cons x l ih =>
    have hd0 : 0 ≤ x.due_amount := hd x (List.mem_cons_self x l)
    have hdiff0 : 0 ≤ min x.due_amount a := le_min hd0 ha
    have hmax : max (min x.due_amount a) 0 = min x.due_amount a :=
      max_eq_left hdiff0
    have ha2 : 0 ≤ a - min x.due_amount a :=
      sub_nonneg.mpr (min_le_right _ _)
    have hd2 : ∀ e ∈ l, 0 ≤ e.due_amount :=
      fun e he => hd e (List.mem_cons_of_mem x he)
    obtain ⟨ih1, ih2, ih3⟩ := ih (a - min x.due_amount a) ha2 hd2
    refine ⟨?_, ?_, ?_⟩
    · simp only [amountPaymentEntries, specAssignPayments, hmax, ih1]
    · simp only [amountPaymentEntries, hmax]
      exact List.Forall₂.cons ⟨hdiff0, min_le_left _ _, rfl, rfl, rfl⟩ ih2
    · simp only [amountPaymentEntries, hmax, List.map_cons, List.sum_cons, ih3]
      exact min_assign_chain x.due_amount a _
        (List.sum_nonneg (by simpa using hd2))

def c10Entries : List PaymentEntry := [⟨1, 21, 5, 0⟩, ⟨2, 22, 4, 0⟩]

theorem amountPaymentEntries_correct_witness :
    amountPaymentEntries 7 c10Entries = specAssignPayments 7 c10Entries ∧
    amountPaymentEntries 7 c10Entries = [⟨1, 21, 5, 5⟩, ⟨2, 22, 4, 2⟩] ∧
    ((amountPaymentEntries 7 c10Entries).map
      (fun e => e.payment_amount)).sum = 7 :=
  ⟨(amountPaymentEntries_correct 7 c10Entries (by norm_num) (by decide)).1,
    by norm_num [amountPaymentEntries, c10Entries, min_def, max_def],
    by norm_num [amountPaymentEntries, c10Entries, min_def, max_def]⟩

lemma ite_zero_self (s : ℚ) : (if s = 0 then 0 else s) = s := by
  by_cases h : s = 0 <;> simp [h]

lemma balance_ok_sums (dto : IManualJournalDTO)
    (hnn : ∀ e ∈ dto.entries, 0 ≤ e.credit ∧ 0 ≤ e.debit)
    (h : valdiateCreditDebitTotalEquals dto = .ok ()) :
    (dto.entries.map (fun e => e.credit)).sum =
      (dto.entries.map (fun e => e.debit)).sum := by
  rw [valdiate_eq_specBalanceCheck dto hnn] at h
  simp only [specBalanceCheck] at h
  split at h
  · exact absurd h (by simp)
  · split at h
    · exact absurd h (by simp)
    · rename_i h2
      exact not_not.mp h2

lemma getManualJournal_ok (st : TenantState) (jid : Nat) (old : ManualJournal)
    (h : getManualJournalOrThrowError st jid = .ok old) :
    old ∈ st.journals ∧ old.id = jid := by
  simp only [getManualJournalOrThrowError] at h
  rcases hf : st.journals.find? (fun j => j.id == jid) with _ | j
  · rw [hf] at h
    exact absurd h (by simp)
  · rw [hf] at h
    have hj : j = old := by
      simpa using h
    subst hj
    refine ⟨List.mem_of_find?_eq_some hf, ?_⟩
    have := List.find?_some hf
    simpa using this

lemma find_eq_of_nodup {l : List ManualJournal}
    (hnd : (l.map (fun j => j.id)).Nodup) {j : ManualJournal} (hj : j ∈ l) :
    l.find? (fun k => k.id == j.id) = some j := by
  induction l with
  | nil => cases hj
  | cons a l ih =>
    simp only [List.map_cons, List.nodup_cons] at hnd
    rcases List.mem_cons.mp hj with rfl | hmem
    · simp [List.find?]
    · have hne : (a.id == j.id) = false := by
        apply beq_false_of_ne
        intro h
        exact hnd.1 (h ▸ List.mem_map_of_mem (fun k => k.id) hmem)
      rw [List.find?_cons_of_neg _ (by simp [hne]), ih hnd.2 hmem]

lemma eq_of_id_eq {l : List ManualJournal}
    (hnd : (l.map (fun j => j.id)).Nodup) {j k : ManualJournal}
    (hj : j ∈ l) (hk : k ∈ l) (h : j.id = k.id) : j = k := by
  induction l with
  | nil => cases hj
  | cons a l ih =>
    simp only [List.map_cons, List.nodup_cons] at hnd
    rcases List.mem_cons.mp hj with rfl | hjm
    · rcases List.mem_cons.mp hk with rfl | hkm
      · rfl
      · have hm : j.id ∈ l.map (fun x => x.id) := by
          rw [h]
          exact List.mem_map_of_mem _ hkm
        exact absurd hm hnd.1
    · rcases List.mem_cons.mp hk with rfl | hkm
      · have hm : k.id ∈ l.map (fun x => x.id) := by
          rw [← h]
          exact List.mem_map_of_mem _ hjm
        exact absurd hm hnd.1
      · exact ih hnd.2 hjm hkm

lemma makeJournalEntries_inv (st : TenantState) (dto : IManualJournalDTO)
    (u now newId : Nat) (j : ManualJournal)
    (hok : (makeJournalEntries st dto u now newId).result = .ok j) :
    ∃ m, transformNewDTOToModel st dto u now = .ok m ∧
      valdiateCreditDebitTotalEquals dto = .ok () ∧
      j = (insertJournalGraph st m newId).2 ∧
      (makeJournalEntries st dto u now newId).state =
        (insertJournalGraph st m newId).1 := by
  rcases h1 : transformNewDTOToModel st dto u now with e | m
  · simp [makeJournalEntries, h1] at hok
  rcases h2 : valdiateCreditDebitTotalEquals dto with e | u2
  · simp [makeJournalEntries, h1, h2] at hok
  rcases h3 : validateContactsExistance st dto with e | u3
  · simp [makeJournalEntries, h1, h2, h3] at hok
  rcases h4 : validateAccountsExistance st dto with e | u4
  · simp [makeJournalEntries, h1, h2, h3, h4] at hok
  rcases h5 : validateManualJournalNoUnique st m.journalNumber none with e | u5
  · simp [makeJournalEntries, h1, h2, h3, h4, h5] at hok
  rcases h6 : dynamicValidateAccountsWithContactType st dto.entries with e | u6
  · simp [makeJournalEntries, h1, h2, h3, h4, h5, h6] at hok
  refine ⟨m, rfl, rfl, ?_, ?_⟩
  · have := hok
    simp [makeJournalEntries, h1, h2, h3, h4, h5, h6] at this
    exact this.symm
  · simp [makeJournalEntries, h1, h2, h3, h4, h5, h6]

lemma editJournalEntries_inv (st : TenantState) (jid : Nat)
    (dto : IManualJournalDTO) (now : Nat)
    (r : Option ManualJournal × ManualJournal)
    (hok : (editJournalEntries st jid dto now).result = .ok r) :
    ∃ old, getManualJournalOrThrowError st jid = .ok old ∧
      valdiateCreditDebitTotalEquals dto = .ok () ∧
      r.2 = old ∧
      (editJournalEntries st jid dto now).state =
        applyEditUpsert st (transformEditDTOToModel dto old now) := by
  rcases h1 : getManualJournalOrThrowError st jid with e | old
  · simp [editJournalEntries, h1] at hok
  rcases h2 : valdiateCreditDebitTotalEquals dto with e | u2
  · simp [editJournalEntries, h1, h2] at hok
  rcases h3 : validateContactsExistance st dto with e | u3
  · simp [editJournalEntries, h1, h2, h3] at hok
  rcases h4 : validateAccountsExistance st dto with e | u4
  · simp [editJournalEntries, h1, h2, h3, h4] at hok
  rcases h5 : (match dto.journalNumber with
      | some n => validateManualJournalNoUnique st n (some jid)
      | none => Except.ok ()) with e | u5
  · simp [editJournalEntries, h1, h2, h3, h4, h5] at hok
  rcases h6 : dynamicValidateAccountsWithContactType st dto.entries with e | u6
  · simp [editJournalEntries, h1, h2, h3, h4, h5, h6] at hok
  refine ⟨old, rfl, rfl, ?_, ?_⟩
  · have := hok
    simp [editJournalEntries, h1, h2, h3, h4, h5, h6] at this
    exact (congrArg Prod.snd this).symm
  · simp [editJournalEntries, h1, h2, h3, h4, h5, h6]

lemma transform_ok_amount (st : TenantState) (dto : IManualJournalDTO)
    (u now : Nat) (m : NewJournalModel)
    (h : transformNewDTOToModel st dto u now = .ok m) :
    m.amount = (dto.entries.map (fun e => e.credit)).sum := by
  rcases hv : validateJournalNoRequire (dto.journalNumber.getD st.autoNextNumber)
      with e | uv
  · simp [transformNewDTOToModel, hv] at h
  · simp [transformNewDTOToModel, hv] at h
    subst h
    simp [ite_zero_self, sumByCredit_eq_sum]

/-- Claim C2: for every journal committed via create or edit (non-negative
entries, validation passed), the stored amount equals the sum of the entries'
credits, which equals the sum of the entries' debits; in particular the create
transform computes `amount = sum(entries.credit)` before persisting. -/
theorem committedAmount_invariant (st : TenantState) (dto : IManualJournalDTO)
    (u now newId jid : Nat)
    (hnn : ∀ e ∈ dto.entries, 0 ≤ e.credit ∧ 0 ≤ e.debit) :
    (∀ m, transformNewDTOToModel st dto u now = .ok m →
      m.amount = (dto.entries.map (fun e => e.credit)).sum) ∧
    (∀ j, (makeJournalEntries st dto u now newId).result = .ok j →
      j.amount = (dto.entries.map (fun e => e.credit)).sum ∧
      (dto.entries.map (fun e => e.credit)).sum =
        (dto.entries.map (fun e => e.debit)).sum) ∧
    (∀ r, (editJournalEntries st jid dto now).result = .ok r →
      (∀ k, k ∈ (editJournalEntries st jid dto now).state.journals →
        k.id = jid → k.amount = (dto.entries.map (fun e => e.credit)).sum) ∧
      (dto.entries.map (fun e => e.credit)).sum =
        (dto.entries.map (fun e => e.debit)).sum) := by
  refine ⟨fun m h => transform_ok_amount st dto u now m h, ?_, ?_⟩
  · intro j hok
    obtain ⟨m, h1, h2, hj, _⟩ := makeJournalEntries_inv st dto u now newId j hok
    refine ⟨?_, balance_ok_sums dto hnn h2⟩
    rw [hj]
    simpa [insertJournalGraph] using transform_ok_amount st dto u now m h1
  · intro r hok
    obtain ⟨old, h1, h2, _, hstate⟩ := editJournalEntries_inv st jid dto now r hok
    obtain ⟨hold_mem, hold_id⟩ := getManualJournal_ok st jid old h1
    refine ⟨?_, balance_ok_sums dto hnn h2⟩
    intro k hk hkid
    rw [hstate] at hk
    simp only [applyEditUpsert, List.mem_map] at hk
    obtain ⟨k0, hk0, hk0eq⟩ := hk
    by_cases hc : (k0.id == (transformEditDTOToModel dto old now).id) = true
    · rw [if_pos hc] at hk0eq
      rw [← hk0eq]
      simp [transformEditDTOToModel, ite_zero_self, sumByCredit_eq_sum]
    · rw [if_neg hc] at hk0eq
      exfalso
      apply hc
      subst hk0eq
      simp only [transformEditDTOToModel, beq_iff_eq]
      rw [hkid, hold_id]

def sampleJournal10 : ManualJournal :=
  { id := 10, journalNumber := "J-1", date := "2024-01-01", amount := 5,
    publishedAt := some 50, userId := 1 }

def sampleJournal11 : ManualJournal :=
  { id := 11, journalNumber := "J-2", date := "2024-01-02", amount := 5,
    publishedAt := none, userId := 1 }

def sampleState : TenantState :=
  { journals := [sampleJournal10, sampleJournal11]
    entryRows := []
    accounts := [⟨1, "cash"⟩, ⟨2, "bank"⟩, ⟨3, "accounts-receivable"⟩,
      ⟨4, "accounts-payable"⟩]
    contacts := [⟨7, "customer"⟩]
    autoNextNumber := "A-1" }

def c2Journal : ManualJournal :=
  { id := 99, journalNumber := "J-9", date := "2024-02-02", amount := 5,
    publishedAt := none, userId := 1 }

theorem committedAmount_invariant_witness :
    (makeJournalEntries sampleState c1Dto 1 100 99).result = .ok c2Journal ∧
    c2Journal.amount = (c1Dto.entries.map (fun e => e.credit)).sum ∧
    (c1Dto.entries.map (fun e => e.credit)).sum =
      (c1Dto.entries.map (fun e => e.debit)).sum := by
  have hok : (makeJournalEntries sampleState c1Dto 1 100 99).result =
      .ok c2Journal := by
    simp [makeJournalEntries, sampleState, sampleJournal10, sampleJournal11,
      c1Dto, c2Journal,
      transformNewDTOToModel, validateJournalNoRequire,
      valdiateCreditDebitTotalEquals, validateContactsExistance,
      validateAccountsExistance, validateManualJournalNoUnique,
      dynamicValidateAccountsWithContactType, validateAccountWithContactType,
      insertJournalGraph, sumByCredit, formatYMD]
    norm_num
  have h := (committedAmount_invariant sampleState c1Dto 1 100 99 0
    (by decide)).2.1 c2Journal hok
  exact ⟨hok, h.1, h.2⟩

lemma makeJournalEntries_error_state (st : TenantState)
    (dto : IManualJournalDTO) (u now newId : Nat) (e : Failure)
    (he : (makeJournalEntries st dto u now newId).result = .error e) :
    (makeJournalEntries st dto u now newId).state = st ∧
    (makeJournalEntries st dto u now newId).writes = [] := by
  rcases h1 : transformNewDTOToModel st dto u now with e1 | m
  · constructor <;> simp [makeJournalEntries, h1]
  rcases h2 : valdiateCreditDebitTotalEquals dto with e2 | u2
  · constructor <;> simp [makeJournalEntries, h1, h2]
  rcases h3 : validateContactsExistance st dto with e3 | u3
  · constructor <;> simp [makeJournalEntries, h1, h2, h3]
  rcases h4 : validateAccountsExistance st dto with e4 | u4
  · constructor <;> simp [makeJournalEntries, h1, h2, h3, h4]
  rcases h5 : validateManualJournalNoUnique st m.journalNumber none with e5 | u5
  · constructor <;> simp [makeJournalEntries, h1, h2, h3, h4, h5]
  rcases h6 : dynamicValidateAccountsWithContactType st dto.entries with e6 | u6
  · constructor <;> simp [makeJournalEntries, h1, h2, h3, h4, h5, h6]
  · simp [makeJournalEntries, h1, h2, h3, h4, h5, h6] at he

lemma editJournalEntries_error_state (st : TenantState) (jid : Nat)
    (dto : IManualJournalDTO) (now : Nat) (e : Failure)
    (he : (editJournalEntries st jid dto now).result = .error e) :
    (editJournalEntries st jid dto now).state = st ∧
    (editJournalEntries st jid dto now).writes = [] := by
  rcases h1 : getManualJournalOrThrowError st jid with e1 | old
  · constructor <;> simp [editJournalEntries, h1]
  rcases h2 : valdiateCreditDebitTotalEquals dto with e2 | u2
  · constructor <;> simp [editJournalEntries, h1, h2]
  rcases h3 : validateContactsExistance st dto with e3 | u3
  · constructor <;> simp [editJournalEntries, h1, h2, h3]
  rcases h4 : validateAccountsExistance st dto with e4 | u4
  · constructor <;> simp [editJournalEntries, h1, h2, h3, h4]
  rcases h5 : (match dto.journalNumber with
      | some n => validateManualJournalNoUnique st n (some jid)
      | none => Except.ok ()) with e5 | u5
  · constructor <;> simp [editJournalEntries, h1, h2, h3, h4, h5]
  rcases h6 : dynamicValidateAccountsWithContactType st dto.entries with e6 | u6
  · constructor <;> simp [editJournalEntries, h1, h2, h3, h4, h5, h6]
  · simp [editJournalEntries, h1, h2, h3, h4, h5, h6] at he

/-- Claim C4: the edit operation never clears or changes a set `publishedAt`
regardless of the DTO's publish flag; when the DTO requests publish and the
prior record was not yet published, edit stamps `publishedAt` to the current
time, and otherwise it leaves `publishedAt` untouched (an edit that fails also
leaves the state unchanged). -/
theorem editPreservesPublishedAt (st : TenantState) (jid now : Nat)
    (dto : IManualJournalDTO)
    (hnd : (st.journals.map (fun j => j.id)).Nodup)
    (j : ManualJournal) (hj : j ∈ st.journals) (hid : j.id = jid) :
    (∀ e, (editJournalEntries st jid dto now).result = .error e →
      (editJournalEntries st jid dto now).state = st) ∧
    (∀ r, (editJournalEntries st jid dto now).result = .ok r →
      ∀ k, k ∈ (editJournalEntries st jid dto now).state.journals →
        k.id = jid →
        k.publishedAt =
          if dto.publish = true ∧ j.publishedAt = none then some now
          else j.publishedAt) := by
  constructor
  · intro e he
    exact (editJournalEntries_error_state st jid dto now e he).1
  · intro r hok k hk hkid
    obtain ⟨old, h1, h2, _, hstate⟩ := editJournalEntries_inv st jid dto now r hok
    obtain ⟨hom, hoid⟩ := getManualJournal_ok st jid old h1
    have hoj : old = j := eq_of_id_eq hnd hom hj (by rw [hoid, hid])
    rw [← hoj]
    rw [hstate] at hk
    simp only [applyEditUpsert, List.mem_map] at hk
    obtain ⟨k0, hk0, hk0eq⟩ := hk
    by_cases hc : (k0.id == (transformEditDTOToModel dto old now).id) = true
    · have hk0id : k0.id = old.id := by
        simpa [transformEditDTOToModel] using hc
      have hk0old : k0 = old := eq_of_id_eq hnd hk0 hom hk0id
      subst hk0old
      rw [if_pos hc] at hk0eq
      rw [← hk0eq]
      by_cases hp : dto.publish = true
      · cases hpa : k0.publishedAt with
        | none => simp [transformEditDTOToModel, hp, hpa, Option.or]
        | some t => simp [transformEditDTOToModel, hp, hpa, Option.or]
      · have hp2 : dto.publish = false := by simpa using hp
        cases hpa : k0.publishedAt <;>
          simp [transformEditDTOToModel, hp2, hpa, Option.or]
    · rw [if_neg hc] at hk0eq
      exfalso
      apply hc
      subst hk0eq
      simp only [transformEditDTOToModel, beq_iff_eq]
      rw [hkid, hoid]

def c4Dto : IManualJournalDTO :=
  { journalNumber := some "J-2", date := "2024-03-03", publish := true
    entries := [⟨1, 5, 0, 1, none, none⟩, ⟨2, 0, 5, 2, none, none⟩] }

def c4Updated : ManualJournal :=
  { id := 11, journalNumber := "J-2", date := "2024-03-03", amount := 5,
    publishedAt := some 100, userId := 1 }

theorem editPreservesPublishedAt_witness :
    c4Updated ∈ (editJournalEntries sampleState 11 c4Dto 100).state.journals ∧
    c4Updated.publishedAt = some 100 := by
  have hok : (editJournalEntries sampleState 11 c4Dto 100).result =
      .ok (some c4Updated, sampleJournal11) := by
    simp [editJournalEntries, sampleState, sampleJournal10, sampleJournal11,
      c4Dto, c4Updated, getManualJournalOrThrowError, transformEditDTOToModel,
      valdiateCreditDebitTotalEquals, validateContactsExistance,
      validateAccountsExistance, validateManualJournalNoUnique,
      dynamicValidateAccountsWithContactType, validateAccountWithContactType,
      applyEditUpsert, sumByCredit, formatYMD, Option.or]
    norm_num
  have hst : (editJournalEntries sampleState 11 c4Dto 100).state.journals =
      [sampleJournal10, c4Updated] := by
    simp [editJournalEntries, sampleState, sampleJournal10, sampleJournal11,
      c4Dto, c4Updated, getManualJournalOrThrowError, transformEditDTOToModel,
      valdiateCreditDebitTotalEquals, validateContactsExistance,
      validateAccountsExistance, validateManualJournalNoUnique,
      dynamicValidateAccountsWithContactType, validateAccountWithContactType,
      applyEditUpsert, sumByCredit, formatYMD, Option.or]
    norm_num
  have hmem : c4Updated ∈
      (editJournalEntries sampleState 11 c4Dto 100).state.journals := by
    rw [hst]
    simp
  have h2 := (editPreservesPublishedAt sampleState 11 100 c4Dto (by decide)
    sampleJournal11 (by decide) rfl).2 (some c4Updated, sampleJournal11) hok
    c4Updated hmem rfl
  refine ⟨hmem, ?_⟩
  rw [h2]
  simp [c4Dto, sampleJournal11]

lemma contains_iff_mem {α : Type} [BEq α] [LawfulBEq α] (l : List α) (a : α) :
    l.contains a = true ↔ a ∈ l := by
  simp

lemma bnot_true_iff (b : Bool) : (!b) = true ↔ b = false := by
  cases b <;> simp

lemma length_filter_isSome_isNone (l : List ManualJournal) :
    (l.filter (fun j => j.publishedAt.isSome)).length +
      (l.filter (fun j => j.publishedAt.isNone)).length = l.length := by
  induction l with
  | nil => rfl
  | cons x l ih =>
    cases hx : x.publishedAt <;> simp [List.filter_cons, hx] <;> omega

lemma getManualJournals_ok (st : TenantState) (ids : List Nat)
    (olds : List ManualJournal)
    (h : getManualJournalsOrThrowError st ids = .ok olds) :
    olds = st.journals.filter (fun j => ids.contains j.id) ∧
    ∀ i ∈ ids, ∃ j ∈ st.journals, j.id = i := by
  simp only [getManualJournalsOrThrowError] at h
  split at h
  · exact absurd h (by simp)
  · rename_i hlen
    have holds : st.journals.filter (fun j => ids.contains j.id) = olds := by
      simpa using h
    refine ⟨holds.symm, ?_⟩
    intro i hi
    have hempty : ids.filter (fun i =>
        !((st.journals.filter (fun j => ids.contains j.id)).map
          (fun m => m.id)).contains i) = [] := by
      rcases List.eq_nil_or_concat (ids.filter (fun i =>
        !((st.journals.filter (fun j => ids.contains j.id)).map
          (fun m => m.id)).contains i)) with hnil | ⟨l2, a, hc⟩
      · exact hnil
      · exfalso
        apply hlen
        rw [hc]
        simp
    have hcontain := List.filter_eq_nil_iff.mp hempty i hi
    rw [bnot_true_iff] at hcontain
    have hcon2 : ((st.journals.filter (fun j => ids.contains j.id)).map
        (fun m => m.id)).contains i = true := by
      rcases hb : ((st.journals.filter (fun j => ids.contains j.id)).map
          (fun m => m.id)).contains i with _ | _
      · exact absurd hb hcontain
      · exact hb
    have hmem := (contains_iff_mem _ i).mp hcon2
    obtain ⟨j, hjmem, hjid⟩ := List.mem_map.mp hmem
    exact ⟨j, (List.mem_filter.mp hjmem).1, hjid⟩

lemma getManualJournals_error (st : TenantState) (ids : List Nat)
    (h : ∃ i ∈ ids, ∀ j ∈ st.journals, j.id ≠ i) :
    getManualJournalsOrThrowError st ids = .error (.service .notFound) := by
  obtain ⟨i, hi, hnone⟩ := h
  simp only [getManualJournalsOrThrowError]
  rw [if_pos]
  have himem : i ∈ ids.filter (fun i =>
      !((st.journals.filter (fun j => ids.contains j.id)).map
        (fun m => m.id)).contains i) := by
    apply List.mem_filter.mpr
    refine ⟨hi, ?_⟩
    rw [bnot_true_iff]
    rcases hb : ((st.journals.filter (fun j => ids.contains j.id)).map
        (fun m => m.id)).contains i with _ | _
    · exact hb
    · exfalso
      have hmem := (contains_iff_mem _ i).mp hb
      obtain ⟨j, hjmem, hjid⟩ := List.mem_map.mp hmem
      exact hnone j (List.mem_filter.mp hjmem).1 hjid
  exact List.length_pos.mpr (List.ne_nil_of_mem himem)

/-- Claim C3: publishing an already-published journal through the single path
fails with `MANUAL_JOURNAL_ALREADY_PUBLISHED` and leaves the state unchanged,
while bulk publish silently skips it: on success the final journals are the
original ones with `publishedAt = now` stamped exactly on the not-yet-published
journals of the batch (already-published rows keep their timestamp), and the
returned counts satisfy `alreadyPublished + published = total`. -/
theorem publishMonotone (st : TenantState) (ids : List Nat) (now : Nat)
    (hnd : (st.journals.map (fun j => j.id)).Nodup) :
    (∀ jid j, j ∈ st.journals → j.id = jid → j.publishedAt.isSome →
      (publishManualJournal st jid now).result =
        .error (.service .manualJournalAlreadyPublished) ∧
      (publishManualJournal st jid now).state = st) ∧
    (∀ meta, (publishManualJournals st ids now).result = .ok meta →
      (publishManualJournals st ids now).state.journals =
        st.journals.map (fun k =>
          if k.id ∈ ids ∧ k.publishedAt = none then
            { k with publishedAt := some now } else k) ∧
      meta.alreadyPublished + meta.published = meta.total) := by
  constructor
  · intro jid j hj hid hpub
    subst hid
    have hf : st.journals.find? (fun k => k.id == j.id) = some j :=
      find_eq_of_nodup hnd hj
    constructor
    · simp [publishManualJournal, getManualJournalOrThrowError, hf,
        validateManualJournalIsNotPublished, hpub]
    · simp [publishManualJournal, getManualJournalOrThrowError, hf,
        validateManualJournalIsNotPublished, hpub]
  · intro meta hok
    rcases hg : getManualJournalsOrThrowError st ids with e | olds
    · simp [publishManualJournals, hg] at hok
    obtain ⟨holds, _⟩ := getManualJournals_ok st ids olds hg
    have hmeta : meta =
        { alreadyPublished := (getPublishedManualJournals olds).length
          published := (getNonePublishedManualJournals olds).length
          total := olds.length } := by
      have h2 := hok
      simp [publishManualJournals, hg] at h2
      exact h2.symm
    constructor
    · by_cases hn : (getNonePublishedManualJournals olds).length > 0
      · have hstate : (publishManualJournals st ids now).state =
            patchPublishedAt st
              ((getNonePublishedManualJournals olds).map (fun j => j.id))
              now := by
          simp [publishManualJournals, hg, hn]
        rw [hstate]
        simp only [patchPublishedAt]
        apply List.map_congr_left
        intro k hk
        by_cases hcond : k.id ∈ ids ∧ k.publishedAt = none
        · have hkolds : k ∈ olds := by
            rw [holds]
            exact List.mem_filter.mpr ⟨hk,
              (contains_iff_mem ids k.id).mpr hcond.1⟩
          have hknp : k ∈ getNonePublishedManualJournals olds := by
            simp only [getNonePublishedManualJournals]
            exact List.mem_filter.mpr ⟨hkolds, by simp [hcond.2]⟩
          have hcontains : (((getNonePublishedManualJournals olds).map
              (fun j => j.id)).contains k.id) = true :=
            (contains_iff_mem _ k.id).mpr
              (List.mem_map_of_mem (fun j => j.id) hknp)
          rw [if_pos hcontains, if_pos hcond]
        · have hncontains : ¬ ((((getNonePublishedManualJournals olds).map
              (fun j => j.id)).contains k.id) = true) := by
            intro hcon
            have hmem := (contains_iff_mem _ k.id).mp hcon
            obtain ⟨m, hmnp, hmid⟩ := List.mem_map.mp hmem
            have hmnp2 := hmnp
            simp only [getNonePublishedManualJournals] at hmnp2
            have hmolds : m ∈ olds := (List.mem_filter.mp hmnp2).1
            have hmnone : m.publishedAt = none :=
              Option.isNone_iff_eq_none.mp (List.mem_filter.mp hmnp2).2
            have hmmem : m ∈ st.journals := by
              rw [holds] at hmolds
              exact (List.mem_filter.mp hmolds).1
            have hmids : (ids.contains m.id) = true := by
              rw [holds] at hmolds
              exact (List.mem_filter.mp hmolds).2
            have hmk : m = k := eq_of_id_eq hnd hmmem hk hmid
            apply hcond
            subst hmk
            exact ⟨(contains_iff_mem ids m.id).mp hmids, hmnone⟩
          rw [if_neg hncontains, if_neg hcond]
      · have hstate : (publishManualJournals st ids now).state = st := by
          simp [publishManualJournals, hg, hn]
        rw [hstate]
        have hptwise : ∀ k ∈ st.journals,
            (if k.id ∈ ids ∧ k.publishedAt = none then
              { k with publishedAt := some now } else k) = k := by
          intro k hk
          rw [if_neg]
          rintro ⟨hkin, hkpub⟩
          have hkolds : k ∈ olds := by
            rw [holds]
            exact List.mem_filter.mpr ⟨hk, (contains_iff_mem ids k.id).mpr hkin⟩
          have hknp : k ∈ getNonePublishedManualJournals olds := by
            simp only [getNonePublishedManualJournals]
            exact List.mem_filter.mpr ⟨hkolds, by simp [hkpub]⟩
          have := List.length_pos.mpr (List.ne_nil_of_mem hknp)
          omega
        calc st.journals = st.journals.map (fun k => k) :=
              (List.map_id _).symm
          _ = st.journals.map (fun k =>
              if k.id ∈ ids ∧ k.publishedAt = none then
                { k with publishedAt := some now } else k) :=
              (List.map_congr_left hptwise).symm
    · rw [hmeta]
      simp only [getPublishedManualJournals, getNonePublishedManualJournals]
      exact length_filter_isSome_isNone olds

def c3Meta : PublishBulkMeta := { alreadyPublished := 1, published := 1, total := 2 }

theorem publishMonotone_witness :
    (publishManualJournal sampleState 10 100).result =
      .error (.service .manualJournalAlreadyPublished) ∧
    (publishManualJournal sampleState 10 100).state = sampleState ∧
    (publishManualJournals sampleState [10, 11] 100).state.journals =
      sampleState.journals.map (fun k =>
        if k.id ∈ [10, 11] ∧ k.publishedAt = none then
          { k with publishedAt := some 100 } else k) ∧
    c3Meta.alreadyPublished + c3Meta.published = c3Meta.total := by
  have h1 := (publishMonotone sampleState [10, 11] 100 (by decide)).1 10
    sampleJournal10 (by decide) rfl (by decide)
  have hok : (publishManualJournals sampleState [10, 11] 100).result =
      .ok c3Meta := by decide
  have h2 := (publishMonotone sampleState [10, 11] 100 (by decide)).2 c3Meta hok
  exact ⟨h1.1, h1.2, h2.1, h2.2⟩

lemma getManualJournals_ok_of_all (st : TenantState) (ids : List Nat)
    (h : ∀ i ∈ ids, ∃ j ∈ st.journals, j.id = i) :
    getManualJournalsOrThrowError st ids =
      .ok (st.journals.filter (fun j => ids.contains j.id)) := by
  simp only [getManualJournalsOrThrowError]
  rw [if_neg]
  intro hlen
  obtain ⟨i, hi⟩ := List.exists_mem_of_ne_nil _ (List.length_pos.mp hlen)
  obtain ⟨hiids, hinc⟩ := List.mem_filter.mp hi
  rw [bnot_true_iff] at hinc
  obtain ⟨j, hjmem, hjid⟩ := h i hiids
  have hjfil : j ∈ st.journals.filter (fun j => ids.contains j.id) :=
    List.mem_filter.mpr ⟨hjmem, (contains_iff_mem ids j.id).mpr (hjid ▸ hiids)⟩
  have : ((st.journals.filter (fun j => ids.contains j.id)).map
      (fun m => m.id)).contains i = true := by
    apply (contains_iff_mem _ i).mpr
    rw [← hjid]
    exact List.mem_map_of_mem (fun m => m.id) hjfil
  rw [this] at hinc
  cases hinc

/-- Claim C6: bulk delete is all-or-nothing: when at least one id does not
resolve to a stored journal the operation raises `NOT_FOUND` issuing no write
(state unchanged, no journal and no entry of the batch deleted); when all ids
resolve, the child entry rows are deleted before the parent journal rows, and
afterwards no journal or entry row of the batch remains. -/
theorem bulkDelete_allOrNothing (st : TenantState) (ids : List Nat) :
    ((∃ i ∈ ids, ∀ j ∈ st.journals, j.id ≠ i) →
      (deleteManualJournals st ids).result = .error (.service .notFound) ∧
      (deleteManualJournals st ids).state = st ∧
      (deleteManualJournals st ids).writes = []) ∧
    ((∀ i ∈ ids, ∃ j ∈ st.journals, j.id = i) →
      (deleteManualJournals st ids).writes =
        [.deleteEntriesWhereJournalIn ids, .deleteJournalsWhereIdIn ids] ∧
      (∀ j ∈ (deleteManualJournals st ids).state.journals, j.id ∉ ids) ∧
      (∀ r ∈ (deleteManualJournals st ids).state.entryRows,
        r.manualJournalId ∉ ids)) := by
  constructor
  · intro h
    have hg := getManualJournals_error st ids h
    refine ⟨?_, ?_, ?_⟩ <;> simp [deleteManualJournals, hg]
  · intro h
    have hg := getManualJournals_ok_of_all st ids h
    refine ⟨?_, ?_, ?_⟩
    · simp [deleteManualJournals, hg]
    · intro j hj
      simp only [deleteManualJournals, hg] at hj
      obtain ⟨_, hjp⟩ := List.mem_filter.mp hj
      rw [bnot_true_iff] at hjp
      intro hmem
      rw [(contains_iff_mem ids j.id).mpr hmem] at hjp
      cases hjp
    · intro r hr
      simp only [deleteManualJournals, hg] at hr
      obtain ⟨_, hrp⟩ := List.mem_filter.mp hr
      rw [bnot_true_iff] at hrp
      intro hmem
      rw [(contains_iff_mem ids r.manualJournalId).mpr hmem] at hrp
      cases hrp

theorem bulkDelete_allOrNothing_witness :
    (deleteManualJournals sampleState [10, 12]).result =
      .error (.service .notFound) ∧
    (deleteManualJournals sampleState [10, 12]).state = sampleState ∧
    (deleteManualJournals sampleState [10, 11]).writes =
      [.deleteEntriesWhereJournalIn [10, 11],
       .deleteJournalsWhereIdIn [10, 11]] := by
  have h1 := (bulkDelete_allOrNothing sampleState [10, 12]).1
    ⟨12, by decide, by decide⟩
  have h2 := (bulkDelete_allOrNothing sampleState [10, 11]).2 (by decide)
  exact ⟨h1.1, h1.2.1, h2.1⟩

/-- Claim C9: within create and edit no persistence write is issued before all
validation rules pass (any failure leaves the stored state unchanged with an
empty write trace), and on edit the target journal is resolved by id first:
when it is absent the operation fails with `NOT_FOUND` whatever the DTO, before
any validation rule runs. -/
theorem validationBeforePersistence (st : TenantState)
    (dto : IManualJournalDTO) (u now newId jid : Nat) :
    (∀ e, (makeJournalEntries st dto u now newId).result = .error e →
      (makeJournalEntries st dto u now newId).state = st ∧
      (makeJournalEntries st dto u now newId).writes = []) ∧
    (∀ e, (editJournalEntries st jid dto now).result = .error e →
      (editJournalEntries st jid dto now).state = st ∧
      (editJournalEntries st jid dto now).writes = []) ∧
    ((∀ j ∈ st.journals, j.id ≠ jid) →
      (editJournalEntries st jid dto now).result =
        .error (.service .notFound)) := by
  refine ⟨fun e he => makeJournalEntries_error_state st dto u now newId e he,
    fun e he => editJournalEntries_error_state st jid dto now e he, ?_⟩
  intro hmiss
  have hf : st.journals.find? (fun j => j.id == jid) = none := by
    rw [List.find?_eq_none]
    intro j hj
    simpa using hmiss j hj
  simp [editJournalEntries, getManualJournalOrThrowError, hf]

def c9BadDto : IManualJournalDTO :=
  { journalNumber := some "J-8", date := "2024-02-02", publish := false
    entries := [] }

theorem validationBeforePersistence_witness :
    (editJournalEntries sampleState 99 c1Dto 100).result =
      .error (.service .notFound) ∧
    (makeJournalEntries sampleState c9BadDto 1 100 99).result =
      .error (.service .creditDebitNotEqualZero) ∧
    (makeJournalEntries sampleState c9BadDto 1 100 99).state = sampleState ∧
    (makeJournalEntries sampleState c9BadDto 1 100 99).writes = [] := by
  have h3 := (validationBeforePersistence sampleState c1Dto 1 100 99 99).2.2
    (by decide)
  have herr : (makeJournalEntries sampleState c9BadDto 1 100 99).result =
      .error (.service .creditDebitNotEqualZero) := by decide
  have h1 := (validationBeforePersistence sampleState c9BadDto 1 100 99 0).1
    (.service .creditDebitNotEqualZero) herr
  exact ⟨h3, herr, h1.1, h1.2⟩

def c7State : TenantState :=
  { journals := [], entryRows := [], accounts := [⟨1, "cash"⟩], contacts := []
    autoNextNumber := "A-1" }

def c7Dto : IManualJournalDTO :=
  { journalNumber := some "J-7", date := "2024-02-02", publish := false
    entries := [⟨1, 5, 0, 1, some 7, some "customer"⟩] }

/-- Claim C7 (code bug evaluation): on a DTO whose single entry references the
absent contact id 7, `validateContactsExistance` throws one
`CONTACTS_NOT_FOUND`, but the collected list is the stored-contact lookup
result `[none]` (the code pushes `storedContact`, which is JS `undefined` for a
missing contact, into `notFoundContactsIds`), so the payload exposed under the
key `contactsIds` carries no contact identifier at all — in particular it is
not the offending identifier list `[7]`.  The check itself is exhaustive and
fails once; only the claimed payload contents diverge. -/
theorem contactsNotFound_payload :
    validateContactsExistance c7State c7Dto =
      .error (.service (.contactsNotFound [none])) ∧
    validateContactsExistance sampleState c7Dto = .ok () := by
  constructor
  · decide
  · decide

lemma isNone_or_ne (x : Option String) (c : String) :
    (x.isNone || x != some c) = (x != some c) := by
  cases x <;> simp

lemma validateAccountWithContactType_spec (st : TenantState)
    (entries : List IManualJournalEntryDTO) (slug ctype : String)
    (acct : Account)
    (hf : st.accounts.find? (fun a => a.slug == slug) = some acct) :
    validateAccountWithContactType st entries slug ctype =
      (if entries.filter (fun e =>
            e.accountId == acct.id && e.contactType != some ctype) = [] then
        .ok ()
      else
        .error (.service (.entriesShouldAssignWithContact slug ctype
          ((entries.filter (fun e =>
            e.accountId == acct.id && e.contactType != some ctype)).map
              (fun e => e.index))))) := by
  have hcomb : entries.filter (fun e =>
        e.accountId == acct.id && e.contactType != some ctype) =
      (entries.filter (fun e => e.accountId == acct.id)).filter
        (fun e => e.contactType.isNone || e.contactType != some ctype) := by
    rw [List.filter_filter]
    apply List.filter_congr
    intro e _
    rw [isNone_or_ne, Bool.and_comm]
  simp only [validateAccountWithContactType, hf]
  by_cases hA : (entries.filter (fun e => e.accountId == acct.id)).length = 0
  · have hAe := List.length_eq_zero.mp hA
    have hce : entries.filter (fun e =>
        e.accountId == acct.id && e.contactType != some ctype) = [] := by
      rw [hcomb, hAe]
      rfl
    rw [if_pos hA, if_pos hce]
  · by_cases hB : entries.filter (fun e =>
        e.accountId == acct.id && e.contactType != some ctype) = []
    · have hB2 : (entries.filter (fun e => e.accountId == acct.id)).filter
          (fun e => e.contactType.isNone || e.contactType != some ctype) = [] := by
        rw [← hcomb]
        exact hB
      have hl0 : ¬ 0 < ((entries.filter (fun e => e.accountId == acct.id)).filter
          (fun e => e.contactType.isNone || e.contactType != some ctype)).length := by
        rw [hB2]
        simp
      rw [if_neg hA, if_neg hl0, if_pos hB]
    · have hB2 : (entries.filter (fun e => e.accountId == acct.id)).filter
          (fun e => e.contactType.isNone || e.contactType != some ctype) ≠ [] := by
        rw [← hcomb]
        exact hB
      have hlen := List.length_pos.mpr hB2
      rw [if_neg hA, if_pos hlen, if_neg hB, hcomb]

lemma dynamic_ok_iff (st : TenantState)
    (entries : List IManualJournalEntryDTO) :
    dynamicValidateAccountsWithContactType st entries = .ok () ↔
      validateAccountWithContactType st entries "accounts-receivable"
        "customer" = .ok () ∧
      validateAccountWithContactType st entries "accounts-payable"
        "vendor" = .ok () := by
  constructor
  · intro h
    rcases h1 : validateAccountWithContactType st entries "accounts-receivable"
        "customer" with e | u
    · simp [dynamicValidateAccountsWithContactType, h1] at h
    · cases u
      refine ⟨rfl, ?_⟩
      simpa [dynamicValidateAccountsWithContactType, h1] using h
  · rintro ⟨h1, h2⟩
    simp [dynamicValidateAccountsWithContactType, h1, h2]

/-- Claim C8: for the account with slug accounts-receivable every entry
referencing it must declare contactType "customer" (vendor for
accounts-payable); the violating entries are collected and reported together
in one `ENTRIES_SHOULD_ASSIGN_WITH_CONTACT` error carrying their indexes, the
account slug and the expected type; entries with the correct contactType pass,
and the two classification checks are independent — both must pass. -/
theorem accountContactTypeRule (st : TenantState)
    (entries : List IManualJournalEntryDTO) (ar ap : Account)
    (har : st.accounts.find? (fun a => a.slug == "accounts-receivable") =
      some ar)
    (hap : st.accounts.find? (fun a => a.slug == "accounts-payable") =
      some ap) :
    (validateAccountWithContactType st entries "accounts-receivable"
        "customer" =
      (if entries.filter (fun e =>
            e.accountId == ar.id && e.contactType != some "customer") = [] then
        .ok ()
      else
        .error (.service (.entriesShouldAssignWithContact
          "accounts-receivable" "customer"
          ((entries.filter (fun e =>
            e.accountId == ar.id && e.contactType != some "customer")).map
              (fun e => e.index)))))) ∧
    (validateAccountWithContactType st entries "accounts-payable" "vendor" =
      (if entries.filter (fun e =>
            e.accountId == ap.id && e.contactType != some "vendor") = [] then
        .ok ()
      else
        .error (.service (.entriesShouldAssignWithContact
          "accounts-payable" "vendor"
          ((entries.filter (fun e =>
            e.accountId == ap.id && e.contactType != some "vendor")).map
              (fun e => e.index)))))) ∧
    (dynamicValidateAccountsWithContactType st entries = .ok () ↔
      validateAccountWithContactType st entries "accounts-receivable"
        "customer" = .ok () ∧
      validateAccountWithContactType st entries "accounts-payable"
        "vendor" = .ok ()) :=
  ⟨validateAccountWithContactType_spec st entries "accounts-receivable"
      "customer" ar har,
    validateAccountWithContactType_spec st entries "accounts-payable"
      "vendor" ap hap,
    dynamic_ok_iff st entries⟩

def c8Entries : List IManualJournalEntryDTO :=
  [⟨0, 5, 0, 3, none, some "vendor"⟩, ⟨1, 0, 5, 3, none, none⟩,
   ⟨2, 0, 5, 3, some 7, some "customer"⟩]

theorem accountContactTypeRule_witness :
    (validateAccountWithContactType sampleState c8Entries
        "accounts-receivable" "customer" =
      (if c8Entries.filter (fun e =>
            e.accountId == (⟨3, "accounts-receivable"⟩ : Account).id &&
              e.contactType != some "customer") = [] then
        .ok ()
      else
        .error (.service (.entriesShouldAssignWithContact
          "accounts-receivable" "customer"
          ((c8Entries.filter (fun e =>
            e.accountId == (⟨3, "accounts-receivable"⟩ : Account).id &&
              e.contactType != some "customer")).map
              (fun e => e.index)))))) ∧
    validateAccountWithContactType sampleState c8Entries
      "accounts-receivable" "customer" =
      .error (.service (.entriesShouldAssignWithContact
        "accounts-receivable" "customer" [0, 1])) ∧
    validateAccountWithContactType sampleState
      [⟨2, 0, 5, 3, some 7, some "customer"⟩] "accounts-receivable"
      "customer" = .ok () :=
  ⟨(accountContactTypeRule sampleState c8Entries ⟨3, "accounts-receivable"⟩
      ⟨4, "accounts-payable"⟩ (by decide) (by decide)).1,
    by decide, by decide⟩

def c5DupDto : IManualJournalDTO := { c1Dto with journalNumber := some "J-1" }

def c5KeepDto : IManualJournalDTO := { c1Dto with journalNumber := some "J-2" }

def c5KeepUpdated : ManualJournal :=
  { id := 11, journalNumber := "J-2", date := "2024-02-02", amount := 5,
    publishedAt := none, userId := 1 }

/-- Claim C5: the uniqueness check errors with `JOURNAL_NUMBER_EXISTS` exactly
when another journal of the tenant (excluding the edited journal itself when
an excluded id is passed) holds the same journal number; concretely, create
with a duplicated number fails, edit reusing another journal's number fails,
and edit keeping the journal's own number succeeds — the rule runs on both the
create and the edit path. -/
theorem journalNumberUniqueness :
    (∀ (st : TenantState) (n : String) (notId : Option Nat),
      validateManualJournalNoUnique st n notId =
          .error (.service .journalNumberExists) ↔
        ∃ j ∈ st.journals, j.journalNumber = n ∧
          ∀ i, notId = some i → j.id ≠ i) ∧
    (makeJournalEntries sampleState c5DupDto 1 100 99).result =
      .error (.service .journalNumberExists) ∧
    (editJournalEntries sampleState 11 c5DupDto 100).result =
      .error (.service .journalNumberExists) ∧
    (editJournalEntries sampleState 11 c5KeepDto 100).result =
      .ok (some c5KeepUpdated, sampleJournal11) := by
  refine ⟨?_, ?_, ?_, ?_⟩
  · intro st n notId
    simp only [validateManualJournalNoUnique]
    constructor
    · intro h
      split at h
      · rename_i hlen
        obtain ⟨j, hj⟩ := List.exists_mem_of_ne_nil _ (List.length_pos.mp hlen)
        obtain ⟨hjm, hjp⟩ := List.mem_filter.mp hj
        rw [Bool.and_eq_true] at hjp
        obtain ⟨hp1, hp2⟩ := hjp
        refine ⟨j, hjm, by simpa using hp1, ?_⟩
        intro i hni
        subst hni
        simpa using hp2
      · exact absurd h (by simp)
    · rintro ⟨j, hjm, hjn, hjni⟩
      split
      · rfl
      · rename_i hlen
        exfalso
        apply hlen
        refine List.length_pos.mpr (List.ne_nil_of_mem
          (List.mem_filter.mpr ⟨hjm, ?_⟩))
        rw [Bool.and_eq_true]
        refine ⟨by simpa using hjn, ?_⟩
        cases notId with
        | none => rfl
        | some i => simpa using hjni i rfl
  · simp [makeJournalEntries, sampleState, sampleJournal10, sampleJournal11,
      c5DupDto, c1Dto, transformNewDTOToModel, validateJournalNoRequire,
      valdiateCreditDebitTotalEquals, validateContactsExistance,
      validateAccountsExistance, validateManualJournalNoUnique,
      dynamicValidateAccountsWithContactType, validateAccountWithContactType,
      insertJournalGraph, sumByCredit, formatYMD]
    norm_num
  · simp [editJournalEntries, sampleState, sampleJournal10, sampleJournal11,
      c5DupDto, c1Dto, getManualJournalOrThrowError, transformEditDTOToModel,
      valdiateCreditDebitTotalEquals, validateContactsExistance,
      validateAccountsExistance, validateManualJournalNoUnique,
      dynamicValidateAccountsWithContactType, validateAccountWithContactType,
      applyEditUpsert, sumByCredit, formatYMD, Option.or]
    norm_num
  · simp [editJournalEntries, sampleState, sampleJournal10, sampleJournal11,
      c5KeepDto, c5KeepUpdated, c1Dto, getManualJournalOrThrowError,
      transformEditDTOToModel, valdiateCreditDebitTotalEquals,
      validateContactsExistance, validateAccountsExistance,
      validateManualJournalNoUnique, dynamicValidateAccountsWithContactType,
      validateAccountWithContactType, applyEditUpsert, sumByCredit, formatYMD,
      Option.or]
    norm_num
